import Mathlib

/-!
Shallow embedding of the SPI TPM-TIS frame decoder of
hw/tpm/tpm_tis_spi.c: the function tpm_tis_spi_transfer8, the decoder
fields of struct TPMStateSpi, the instance initialiser
tpm_tis_spi_initfn and the device reset tpm_tis_spi_reset.

Modelling conventions:
* Machine integers are Nat with explicit reductions: a store through a
  uint8_t lvalue is `% 256`, the uint32_t reply register is
  `% 4294967296`.
* The C bitfield union TpmTisRWSizeByte is decoded with the usual
  lsb-first allocation on a little-endian host: data__expected_size is
  bits 0..5 of the stored byte, resv is bit 6, rwflag is bit 7.
* The unions TpmTisSpiHwAddr and TpmTisSpiData overlay an integer with
  its little-endian byte array; they are modelled as byte lists
  (8 bytes for hwaddr, 4 bytes for uint32_t) together with leVal, the
  little-endian value of a byte list.
* A store through bytes[i] with i outside the array is undefined
  behaviour in C; the model records such stores in an instrumentation
  log (oobData, oobAddr) instead of inventing a memory content, and
  leaves the declared bytes unchanged.
* The register-file collaborator (tpm_tis_mmio_read / tpm_tis_mmio_write)
  is an opaque oracle: the value a read returns is a function parameter,
  and every access the decoder performs is recorded in an access trace.
* The state variable the source's switch reads is the decoder-state
  field of struct TPMStateSpi, declared there as `uint8_t spi_state`
  (the file's `s->state` / `tts->state` spellings denote it; it is the
  only decoder-state field). STATE_IDLE and the switch's default branch
  have textually identical bodies in the source.
-/

def STATE_IDLE : Nat := 0

def STATE_ADDRESS : Nat := 1

def STATE_DATA : Nat := 2

/-- Field data__expected_size of union TpmTisRWSizeByte: bits 0..5 of the byte. -/
def data_expected_size (b : Nat) : Nat := b % 64

/-- Field resv of union TpmTisRWSizeByte: bit 6 of the byte. -/
def resvBit (b : Nat) : Nat := b / 64 % 2

/-- Field rwflag of union TpmTisRWSizeByte: bit 7 of the byte. -/
def rwflag (b : Nat) : Nat := b / 128 % 2

/-- Little-endian value of a byte list: bytes[0] is the least significant. -/
def leVal (bs : List Nat) : Nat := bs.foldr (fun b acc => b + 256 * acc) 0

/-- Decoder fields of struct TPMStateSpi. `addrBytes` is the 8-byte array of
union TpmTisSpiHwAddr, `dataBytes` the 4-byte array of union TpmTisSpiData,
`first_byte` the raw byte stored in union TpmTisRWSizeByte. The two `oob`
lists are instrumentation recording out-of-bounds stores (index, byte). -/
structure TPMStateSpi where
  spi_state : Nat
  first_byte : Nat
  addrBytes : List Nat
  dataBytes : List Nat
  data_idx : Nat
  addr_idx : Nat
  oobData : List (Nat × Nat)
  oobAddr : List (Nat × Nat)
deriving DecidableEq

/-- Value of the `addr` member of union TpmTisSpiHwAddr (the hwaddr). -/
def hwAddrVal (s : TPMStateSpi) : Nat := leVal s.addrBytes

/-- Value of the `data` member of union TpmTisSpiData (the uint32_t). -/
def dataVal (s : TPMStateSpi) : Nat := leVal s.dataBytes

/-- One register-file access performed by the decoder: a call of
tpm_tis_mmio_read (address, width) or tpm_tis_mmio_write
(address, value, width). -/
inductive MmioAccess where
  | read (a w : Nat)
  | write (a v w : Nat)
deriving DecidableEq

def accessIsRead : MmioAccess → Bool
  | .read _ _ => true
  | .write _ _ _ => false

def accessAddr : MmioAccess → Nat
  | .read a _ => a
  | .write a _ _ => a

def accessWidth : MmioAccess → Nat
  | .read _ w => w
  | .write _ _ w => w

/-- Result of one tpm_tis_spi_transfer8 call: the updated decoder state, the
uint32_t return value `r`, and the register-file accesses performed during
the call (empty or a single access). -/
structure TransferResult where
  state : TPMStateSpi
  r : Nat
  accesses : List MmioAccess
deriving DecidableEq

/-- The function tpm_tis_spi_transfer8 of hw/tpm/tpm_tis_spi.c. `f` is the
read oracle standing for tpm_tis_mmio_read. The switch's STATE_IDLE case and
its default case have identical bodies and form the final else branch. -/
def tpm_tis_spi_transfer8 (f : Nat → Nat → Nat) (s : TPMStateSpi) (tx : Nat) :
    TransferResult :=
  if s.spi_state = STATE_ADDRESS then
    if s.addr_idx = 0 then
      ⟨{ s with spi_state := STATE_DATA }, 0, []⟩
    else if s.addr_idx - 1 < 8 then
      ⟨{ s with addrBytes := s.addrBytes.set (s.addr_idx - 1) (tx % 256),
                addr_idx := s.addr_idx - 1 }, 0, []⟩
    else
      ⟨{ s with oobAddr := s.oobAddr ++ [(s.addr_idx - 1, tx % 256)],
                addr_idx := s.addr_idx - 1 }, 0, []⟩
  else if s.spi_state = STATE_DATA then
    if s.data_idx = 0 then
      if rwflag s.first_byte = 1 then
        ⟨{ s with spi_state := STATE_IDLE },
          f (hwAddrVal s) (data_expected_size s.first_byte) % 4294967296,
          [MmioAccess.read (hwAddrVal s) (data_expected_size s.first_byte)]⟩
      else
        ⟨{ s with spi_state := STATE_IDLE }, 0,
          [MmioAccess.write (hwAddrVal s) (dataVal s)
            (data_expected_size s.first_byte)]⟩
    else if s.data_idx - 1 < 4 then
      ⟨{ s with dataBytes := s.dataBytes.set (s.data_idx - 1) (tx % 256),
                data_idx := s.data_idx - 1 }, 0, []⟩
    else
      ⟨{ s with oobData := s.oobData ++ [(s.data_idx - 1, tx % 256)],
                data_idx := s.data_idx - 1 }, 0, []⟩
  else
    ⟨{ s with first_byte := tx % 256,
              data_idx := data_expected_size (tx % 256),
              spi_state := STATE_ADDRESS }, 0, []⟩

/-- Decoder state right after instantiation: the QOM instance memory is
zeroed, then tpm_tis_spi_initfn sets addr_idx to 3. -/
def initState : TPMStateSpi :=
  { spi_state := STATE_IDLE
    first_byte := 0
    addrBytes := List.replicate 8 0
    dataBytes := List.replicate 4 0
    data_idx := 0
    addr_idx := 3
    oobData := []
    oobAddr := [] }

/-- Successor state of one transfer call. The state update never depends on
the read oracle (the fetched value is only returned, never stored), so a
fixed oracle is used. -/
def nextState (s : TPMStateSpi) (tx : Nat) : TPMStateSpi :=
  (tpm_tis_spi_transfer8 (fun _ _ => 0) s tx).state

/-- Final decoder state after a list of transfer calls. -/
def runState (s : TPMStateSpi) (bs : List Nat) : TPMStateSpi :=
  bs.foldl nextState s

/-- States after each transfer call of a trace, in order. -/
def runStates : TPMStateSpi → List Nat → List TPMStateSpi
  | _, [] => []
  | s, b :: bs => nextState s b :: runStates (nextState s b) bs

/-- Register-file accesses performed along a trace, in order. The accesses
never depend on the read oracle, so a fixed oracle is used. -/
def runAccesses : TPMStateSpi → List Nat → List MmioAccess
  | _, [] => []
  | s, b :: bs =>
      (tpm_tis_spi_transfer8 (fun _ _ => 0) s b).accesses ++
        runAccesses (nextState s b) bs

/-- Reply bytes returned by the transfer calls of a trace, in order, under
read oracle `f`. -/
def runReplies (f : Nat → Nat → Nat) : TPMStateSpi → List Nat → List Nat
  | _, [] => []
  | s, b :: bs =>
      (tpm_tis_spi_transfer8 f s b).r ::
        runReplies f (tpm_tis_spi_transfer8 f s b).state bs

/-- Opaque TPM core state (struct TPMState): contents irrelevant to the
decoder claims, modelled as a Nat. -/
def tpmCoreInit : Nat := 0

/-- Modelled from the spec: tpm_tis_reset (hw/tpm/tpm_tis.c, not under src/)
restores the TPM core / register-file state to its initial value and, per the
spec, never triggers a register-file read or write access; it does not touch
the decoder fields. It returns the new core state and the (empty) list of
register-file accesses it performs. -/
def tpm_tis_reset (_c : Nat) : Nat × List MmioAccess := (tpmCoreInit, [])

/-- Device view used by reset: the decoder fields plus the opaque TPM core. -/
structure TPMStateSpiDev where
  spi : TPMStateSpi
  core : Nat
deriving DecidableEq

/-- The function tpm_tis_spi_reset of hw/tpm/tpm_tis_spi.c: it only calls
tpm_tis_reset on the embedded TPMState and leaves every decoder field
untouched. Returns the new device state and the register-file accesses
performed. -/
def tpm_tis_spi_reset (d : TPMStateSpiDev) : TPMStateSpiDev × List MmioAccess :=
  ({ d with core := (tpm_tis_reset d.core).1 }, (tpm_tis_reset d.core).2)

/-- State part of tpm_tis_spi_reset, for iteration. -/
def resetState (d : TPMStateSpiDev) : TPMStateSpiDev := (tpm_tis_spi_reset d).1

/-- Clamped header size in the spec's words (P1): min of bits 6..1 of the
header byte and the 4-byte buffer capacity. Stated for comparison with the
source decoding; not part of the source model. -/
def specClampedSize (h : Nat) : Nat := min (h / 2 % 64) 4

/-- Assembled big-endian address value of three address bytes a2, a1, a0. -/
def asmAddr (a2 a1 a0 : Nat) : Nat := a2 * 65536 + a1 * 256 + a0

/-! Basic lemmas about one transfer step and about traces. -/

theorem transfer8_state_oracle (f : Nat → Nat → Nat) (s : TPMStateSpi) (tx : Nat) :
    (tpm_tis_spi_transfer8 f s tx).state = nextState s tx := by
  unfold nextState tpm_tis_spi_transfer8
  split_ifs <;> rfl

theorem runState_cons (s : TPMStateSpi) (b : Nat) (bs : List Nat) :
    runState s (b :: bs) = runState (nextState s b) bs := rfl

theorem runState_append (s : TPMStateSpi) (xs ys : List Nat) :
    runState s (xs ++ ys) = runState (runState s xs) ys := by
  simp [runState, List.foldl_append]

theorem runAccesses_append (xs ys : List Nat) :
    ∀ s : TPMStateSpi,
      runAccesses s (xs ++ ys) =
        runAccesses s xs ++ runAccesses (runState s xs) ys := by
  induction xs with
  | nil => intro s; rfl
  | cons b bs ih =>
      intro s
      simp only [List.cons_append, runAccesses, List.append_eq, ih,
        runState_cons, List.append_assoc]

theorem runReplies_cons (f : Nat → Nat → Nat) (s : TPMStateSpi) (b : Nat)
    (bs : List Nat) :
    runReplies f s (b :: bs) =
      (tpm_tis_spi_transfer8 f s b).r :: runReplies f (nextState s b) bs := by
  rw [runReplies, transfer8_state_oracle]

theorem runReplies_append (f : Nat → Nat → Nat) (xs ys : List Nat) :
    ∀ s : TPMStateSpi,
      runReplies f s (xs ++ ys) =
        runReplies f s xs ++ runReplies f (runState s xs) ys := by
  induction xs with
  | nil => intro s; rfl
  | cons b bs ih =>
      intro s
      simp only [List.cons_append, runReplies_cons, ih, runState_cons,
        List.cons_append]

theorem nextState_eq_idle_iff (s : TPMStateSpi) (tx : Nat) :
    (nextState s tx).spi_state = STATE_IDLE ↔
      s.spi_state = STATE_DATA ∧ s.data_idx = 0 := by
  unfold nextState tpm_tis_spi_transfer8
  split_ifs <;> simp_all [STATE_IDLE, STATE_ADDRESS, STATE_DATA]

theorem nonterminal_accesses (f : Nat → Nat → Nat) (s : TPMStateSpi) (tx : Nat)
    (h : ¬(s.spi_state = STATE_DATA ∧ s.data_idx = 0)) :
    (tpm_tis_spi_transfer8 f s tx).accesses = [] := by
  unfold tpm_tis_spi_transfer8
  split_ifs <;> simp_all

theorem terminal_accesses_length (f : Nat → Nat → Nat) (s : TPMStateSpi)
    (tx : Nat) (h1 : s.spi_state = STATE_DATA) (h2 : s.data_idx = 0) :
    ((tpm_tis_spi_transfer8 f s tx).accesses).length = 1 := by
  by_cases hr : rwflag s.first_byte = 1 <;>
    simp [tpm_tis_spi_transfer8, h1, h2, hr, STATE_IDLE, STATE_ADDRESS,
      STATE_DATA]

theorem step_terminal (f : Nat → Nat → Nat) (s : TPMStateSpi) (tx : Nat)
    (h1 : s.spi_state = STATE_DATA) (h2 : s.data_idx = 0) :
    (tpm_tis_spi_transfer8 f s tx).accesses =
      (if rwflag s.first_byte = 1 then
        [MmioAccess.read (hwAddrVal s) (data_expected_size s.first_byte)]
      else
        [MmioAccess.write (hwAddrVal s) (dataVal s)
          (data_expected_size s.first_byte)]) ∧
    (tpm_tis_spi_transfer8 f s tx).r =
      (if rwflag s.first_byte = 1 then
        f (hwAddrVal s) (data_expected_size s.first_byte) % 4294967296
      else 0) ∧
    (nextState s tx).spi_state = STATE_IDLE := by
  by_cases hr : rwflag s.first_byte = 1 <;>
    simp [tpm_tis_spi_transfer8, nextState, h1, h2, hr, STATE_IDLE,
      STATE_ADDRESS, STATE_DATA]

theorem step_data_nonterminal (f : Nat → Nat → Nat) (s : TPMStateSpi)
    (tx : Nat) (h1 : s.spi_state = STATE_DATA) (h2 : s.data_idx ≠ 0) :
    (tpm_tis_spi_transfer8 f s tx).r = 0 ∧
    (tpm_tis_spi_transfer8 f s tx).accesses = [] ∧
    (nextState s tx).spi_state = STATE_DATA ∧
    (nextState s tx).data_idx = s.data_idx - 1 ∧
    (nextState s tx).first_byte = s.first_byte ∧
    (nextState s tx).addrBytes = s.addrBytes ∧
    (nextState s tx).addr_idx = s.addr_idx := by
  by_cases hlt : s.data_idx - 1 < 4 <;>
    simp [tpm_tis_spi_transfer8, nextState, h1, h2, hlt, STATE_IDLE,
      STATE_ADDRESS, STATE_DATA]

theorem no_idle_no_access (bs : List Nat) :
    ∀ s : TPMStateSpi,
      (∀ t ∈ runStates s bs, t.spi_state ≠ STATE_IDLE) →
      runAccesses s bs = [] := by
  induction bs with
  | nil => intro s _; rfl
  | cons b rest ih =>
      intro s h
      have h1 : (nextState s b).spi_state ≠ STATE_IDLE :=
        h _ (by simp [runStates])
      have h2 : ¬(s.spi_state = STATE_DATA ∧ s.data_idx = 0) := fun hc =>
        h1 ((nextState_eq_idle_iff s b).mpr hc)
      rw [runAccesses, nonterminal_accesses _ _ _ h2, List.nil_append]
      exact ih (nextState s b) (fun t ht => h t (by simp [runStates, ht]))

theorem run_data_phase (f : Nat → Nat → Nat) :
    ∀ (d : List Nat) (s : TPMStateSpi),
      s.spi_state = STATE_DATA → s.data_idx = d.length →
      runAccesses s d = [] ∧
      runReplies f s d = List.replicate d.length 0 ∧
      (runState s d).spi_state = STATE_DATA ∧
      (runState s d).data_idx = 0 ∧
      (runState s d).first_byte = s.first_byte ∧
      (runState s d).addrBytes = s.addrBytes ∧
      (runState s d).addr_idx = s.addr_idx := by
  intro d
  induction d with
  | nil =>
      intro s h1 h2
      exact ⟨rfl, rfl, h1, by simpa using h2, rfl, rfl, rfl⟩
  | cons b rest ih =>
      intro s h1 h2
      have hne : s.data_idx ≠ 0 := by rw [h2]; simp
      obtain ⟨hr, hacc, hst, hidx, hfb, hab, hai⟩ :=
        step_data_nonterminal f s b h1 hne
      have hacc0 : (tpm_tis_spi_transfer8 (fun _ _ => 0) s b).accesses = [] :=
        (step_data_nonterminal (fun _ _ => 0) s b h1 hne).2.1
      have hidx' : (nextState s b).data_idx = rest.length := by
        rw [hidx, h2]; simp
      obtain ⟨ih1, ih2, ih3, ih4, ih5, ih6, ih7⟩ :=
        ih (nextState s b) hst hidx'
      refine ⟨?_, ?_, ?_, ?_, ?_, ?_, ?_⟩
      · rw [runAccesses, hacc0, List.nil_append]
        exact ih1
      · rw [runReplies_cons, hr, ih2]
        simp [List.replicate]
      · rw [runState_cons]; exact ih3
      · rw [runState_cons]; exact ih4
      · rw [runState_cons, ih5, hfb]
      · rw [runState_cons, ih6, hab]
      · rw [runState_cons, ih7, hai]

theorem init_transaction (f : Nat → Nat → Nat) (h a2 a1 a0 x t : Nat)
    (d : List Nat) (hh : h < 256) (ha2 : a2 < 256) (ha1 : a1 < 256)
    (ha0 : a0 < 256) (hd : d.length = h % 64) :
    runAccesses initState (h :: a2 :: a1 :: a0 :: x :: d) = [] ∧
    runReplies f initState (h :: a2 :: a1 :: a0 :: x :: d) =
      List.replicate (5 + d.length) 0 ∧
    (runState initState ((h :: a2 :: a1 :: a0 :: x :: d) ++ [t])).spi_state =
      STATE_IDLE ∧
    runAccesses initState ((h :: a2 :: a1 :: a0 :: x :: d) ++ [t]) =
      (if rwflag h = 1 then [MmioAccess.read (asmAddr a2 a1 a0) (h % 64)]
       else
        [MmioAccess.write (asmAddr a2 a1 a0)
          (dataVal (runState initState (h :: a2 :: a1 :: a0 :: x :: d)))
          (h % 64)]) ∧
    runReplies f initState ((h :: a2 :: a1 :: a0 :: x :: d) ++ [t]) =
      List.replicate (5 + d.length) 0 ++
        [if rwflag h = 1 then f (asmAddr a2 a1 a0) (h % 64) % 4294967296
         else 0] := by
  have hsplit : (h :: a2 :: a1 :: a0 :: x :: d) = [h, a2, a1, a0, x] ++ d :=
    rfl
  have e1 : runState initState [h, a2, a1, a0, x] =
      ⟨STATE_DATA, h, [a0, a1, a2, 0, 0, 0, 0, 0], [0, 0, 0, 0], h % 64, 0,
        [], []⟩ := by
    have e0 : runState initState [h, a2, a1, a0, x] =
        ⟨STATE_DATA, h % 256, [a0 % 256, a1 % 256, a2 % 256, 0, 0, 0, 0, 0],
          [0, 0, 0, 0], h % 256 % 64, 0, [], []⟩ := rfl
    rw [e0, Nat.mod_eq_of_lt hh, Nat.mod_eq_of_lt ha2, Nat.mod_eq_of_lt ha1,
      Nat.mod_eq_of_lt ha0]
  have e1acc : runAccesses initState [h, a2, a1, a0, x] = [] := rfl
  have e1rep : runReplies f initState [h, a2, a1, a0, x] = [0, 0, 0, 0, 0] :=
    rfl
  obtain ⟨p1, p2, p3, p4, p5, p6, p7⟩ :=
    run_data_phase f d (runState initState [h, a2, a1, a0, x])
      (by rw [e1]) (by rw [e1]; exact hd.symm)
  have hfb : (runState initState (h :: a2 :: a1 :: a0 :: x :: d)).first_byte
      = h := by
    rw [hsplit, runState_append, p5, e1]
  have hab : (runState initState (h :: a2 :: a1 :: a0 :: x :: d)).addrBytes
      = [a0, a1, a2, 0, 0, 0, 0, 0] := by
    rw [hsplit, runState_append, p6, e1]
  have hst : (runState initState (h :: a2 :: a1 :: a0 :: x :: d)).spi_state
      = STATE_DATA := by
    rw [hsplit, runState_append]; exact p3
  have hdi : (runState initState (h :: a2 :: a1 :: a0 :: x :: d)).data_idx
      = 0 := by
    rw [hsplit, runState_append]; exact p4
  have hhw : hwAddrVal (runState initState (h :: a2 :: a1 :: a0 :: x :: d))
      = asmAddr a2 a1 a0 := by
    rw [hwAddrVal, hab]
    simp [leVal, asmAddr]
    ring
  have hsz : data_expected_size
      (runState initState (h :: a2 :: a1 :: a0 :: x :: d)).first_byte
      = h % 64 := by rw [hfb]; rfl
  have cacc : runAccesses initState (h :: a2 :: a1 :: a0 :: x :: d) = [] := by
    rw [hsplit, runAccesses_append, e1acc, List.nil_append]; exact p1
  have crep : runReplies f initState (h :: a2 :: a1 :: a0 :: x :: d) =
      List.replicate (5 + d.length) 0 := by
    rw [hsplit, runReplies_append, e1rep, p2, List.replicate_add]
    rfl
  obtain ⟨q1, q2, q3⟩ :=
    step_terminal f (runState initState (h :: a2 :: a1 :: a0 :: x :: d)) t
      hst hdi
  have q1z := (step_terminal (fun _ _ => 0)
      (runState initState (h :: a2 :: a1 :: a0 :: x :: d)) t hst hdi).1
  refine ⟨cacc, crep, ?_, ?_, ?_⟩
  · rw [runState_append]
    exact q3
  · rw [runAccesses_append, cacc, List.nil_append, runAccesses,
      runAccesses, List.append_nil, q1z, hfb, hhw]
    rfl
  · rw [runReplies_append, crep, runReplies_cons, runReplies, q2, hfb, hhw]
    rfl

/-- C10: for every read oracle, decoder state and input byte, transfer()
returns 0 except when its entry state is the Data phase with data_idx = 0
and a stored header whose rwflag bit is set — the terminal step of a read
transaction — where it returns the value fetched from the register-file
collaborator, truncated to uint32_t. -/
theorem c10_reply (f : Nat → Nat → Nat) (s : TPMStateSpi) (tx : Nat) :
    (tpm_tis_spi_transfer8 f s tx).r =
      if s.spi_state = STATE_DATA ∧ s.data_idx = 0 ∧ rwflag s.first_byte = 1
      then f (hwAddrVal s) (data_expected_size s.first_byte) % 4294967296
      else 0 := by
  unfold tpm_tis_spi_transfer8
  split_ifs <;> simp_all [STATE_IDLE, STATE_ADDRESS, STATE_DATA]

/-- C9: reset is idempotent — iterating tpm_tis_spi_reset any positive
number of consecutive times leaves the device state identical to a single
call — and a reset call performs no register-file read or write access. -/
theorem c9_reset_idempotent (d : TPMStateSpiDev) (n : Nat) :
    resetState^[n + 1] d = resetState d ∧ (tpm_tis_spi_reset d).2 = [] := by
  constructor
  · induction n with
    | zero => rfl
    | succ k ih => rw [Function.iterate_succ_apply', ih]; rfl
  · rfl

/-- C7 counterexample: the spec's own example of a protocol violation — a
data byte supplied against a header declaring size zero — does not put the
decoder into a Confused state that refuses register access: within that very
transaction, with no reset in between, the decoder performs a register
write. -/
theorem c7_counterexample :
    runAccesses initState [0, 0, 0, 0, 0, 0] = [MmioAccess.write 0 0 0] ∧
    ([MmioAccess.write 0 0 0] : List MmioAccess) ≠ [] := by decide

/-- C7 amended: there is no Confused state. A byte arriving with the decoder
state variable outside the three defined states (the only representable
"unexpected phase") is handled by the switch's default branch, which decodes
it as a fresh header exactly like Idle: the decoder enters the Address phase
with the byte stored as header, and that call performs no register access
and replies 0; protocol violations are never detected or latched. -/
theorem c7_amended (f : Nat → Nat → Nat) (s : TPMStateSpi) (tx : Nat)
    (h1 : s.spi_state ≠ STATE_IDLE) (h2 : s.spi_state ≠ STATE_ADDRESS)
    (h3 : s.spi_state ≠ STATE_DATA) :
    (nextState s tx).spi_state = STATE_ADDRESS ∧
    (nextState s tx).first_byte = tx % 256 ∧
    (nextState s tx).data_idx = data_expected_size (tx % 256) ∧
    (tpm_tis_spi_transfer8 f s tx).accesses = [] ∧
    (tpm_tis_spi_transfer8 f s tx).r = 0 := by
  simp [nextState, tpm_tis_spi_transfer8, h2, h3]

/-- C7 amended witness: concrete unexpected-phase state (spi_state = 5). -/
theorem c7_amended_witness :
    (nextState { initState with spi_state := 5 } 132).spi_state =
      STATE_ADDRESS ∧
    (nextState { initState with spi_state := 5 } 132).first_byte =
      132 % 256 ∧
    (nextState { initState with spi_state := 5 } 132).data_idx =
      data_expected_size (132 % 256) ∧
    (tpm_tis_spi_transfer8 (fun _ _ => 0)
      { initState with spi_state := 5 } 132).accesses = [] ∧
    (tpm_tis_spi_transfer8 (fun _ _ => 0)
      { initState with spi_state := 5 } 132).r = 0 :=
  c7_amended (fun _ _ => 0) { initState with spi_state := 5 } 132
    (by decide) (by decide) (by decide)

/-- C1 counterexample: the five bytes 0x84, 0x00, 0x10, 0x00, 0xAB of the
claim's scenario, fed to the fresh decoder, produce no register access at
all — in particular not one write call — because the Address→Data
transition itself consumes the fifth byte. -/
theorem c1_counterexample :
    runAccesses initState [132, 0, 16, 0, 171] = [] := by decide

/-- C1 amended: the transitions out of the Address phase and out of the Data
phase each consume one extra transfer() call. From the initial state, a
write transaction (header bit 7 clear) whose declared size is N = bits 5..0
of the header is completed, and its single register write issued, by exactly
1 (header) + 3 (address) + 1 (Address→Data transition) + N (data) + 1
(terminal) calls: after the first N+5 calls no access has occurred, and the
(N+6)th call performs the one write, of width N, at the assembled address,
returning the decoder to Idle. The scenario bytes starting 0x84 have bit 7
set and would therefore end in a read, not a write. -/
theorem c1_amended (f : Nat → Nat → Nat) (h a2 a1 a0 x t : Nat)
    (d : List Nat) (hh : h < 256) (hw : rwflag h = 0) (ha2 : a2 < 256)
    (ha1 : a1 < 256) (ha0 : a0 < 256) (hd : d.length = h % 64) :
    runAccesses initState (h :: a2 :: a1 :: a0 :: x :: d) = [] ∧
    (runAccesses initState ((h :: a2 :: a1 :: a0 :: x :: d) ++ [t])).map
        (fun a => (accessIsRead a, accessAddr a, accessWidth a)) =
      [(false, asmAddr a2 a1 a0, h % 64)] ∧
    (runState initState ((h :: a2 :: a1 :: a0 :: x :: d) ++ [t])).spi_state =
      STATE_IDLE := by
  obtain ⟨c1, _, c3, c4, _⟩ :=
    init_transaction f h a2 a1 a0 x t d hh ha2 ha1 ha0 hd
  have hr : ¬rwflag h = 1 := by rw [hw]; decide
  refine ⟨c1, ?_, c3⟩
  rw [c4, if_neg hr]
  simp [accessIsRead, accessAddr, accessWidth]

/-- C1 amended witness: write header 0x04 (size 4), address 0x001000, four
data bytes: ten calls, one write at 0x1000 of width 4. -/
theorem c1_amended_witness :
    runAccesses initState [4, 0, 16, 0, 0, 171, 1, 2, 3] = [] ∧
    (runAccesses initState ([4, 0, 16, 0, 0, 171, 1, 2, 3] ++ [0])).map
        (fun a => (accessIsRead a, accessAddr a, accessWidth a)) =
      [(false, asmAddr 0 16 0, 4 % 64)] ∧
    (runState initState
      ([4, 0, 16, 0, 0, 171, 1, 2, 3] ++ [0])).spi_state = STATE_IDLE :=
  c1_amended (fun _ _ => 0) 4 0 16 0 0 0 [171, 1, 2, 3] (by decide)
    (by decide) (by decide) (by decide) (by decide) (by decide)

/-- C2 code_bug evaluation at the failing input: after the completed size-1
write transaction 0x01,0,0,0,0,0xAB,0 the decoder is back in Idle with
addr_idx = 0; the next header byte, consumed in Idle, re-seeds neither
data_idx with a clamp (header 0x3F yields data_idx = 63, not min(63,4)=4)
nor addr_idx to 3, so the byte following the new header is consumed by the
Address→Data transition and the bytes after it are not stored as a new
address (addrBytes is unchanged). -/
theorem c2_code_bug :
    (runState initState [1, 0, 0, 0, 0, 171, 0]).spi_state = STATE_IDLE ∧
    (runState initState [1, 0, 0, 0, 0, 171, 0]).addr_idx = 0 ∧
    (runState initState [1, 0, 0, 0, 0, 171, 0, 1]).spi_state =
      STATE_ADDRESS ∧
    (runState initState [1, 0, 0, 0, 0, 171, 0, 1]).addr_idx = 0 ∧
    (runState initState [1, 0, 0, 0, 0, 171, 0, 1, 222]).spi_state =
      STATE_DATA ∧
    (runState initState [1, 0, 0, 0, 0, 171, 0, 1, 222]).addrBytes =
      (runState initState [1, 0, 0, 0, 0, 171, 0]).addrBytes ∧
    (nextState initState 63).data_idx = 63 := by decide

/-- C3 counterexample: for header byte 0x02 the claim's clamped size
min(bits6..1, 4) is 1 but the code seeds the transaction size (data_idx)
with bits 5..0 = 2; for header byte 0x3F the claim's clamped size is 4 but
the code uses 63. -/
theorem c3_counterexample :
    (nextState initState 2).data_idx = 2 ∧ specClampedSize 2 = 1 ∧
    (nextState initState 63).data_idx = 63 ∧ specClampedSize 63 = 4 ∧
    (2 : Nat) ≠ 1 ∧ (63 : Nat) ≠ 4 := by decide

/-- C3 amended: for every header byte h consumed in Idle, the decoded
direction is bit 7 of h (the rwflag bitfield) and the size used for the
transaction is bits 5..0 of h (the 6-bit data__expected_size bitfield in the
six low bits), with no clamping to the 4-byte buffer capacity. -/
theorem c3_amended (h : Nat) (hh : h < 256) :
    rwflag (nextState initState h).first_byte = h / 128 % 2 ∧
    (nextState initState h).data_idx = h % 64 ∧
    data_expected_size (nextState initState h).first_byte = h % 64 := by
  have e : nextState initState h =
      ⟨STATE_ADDRESS, h % 256, List.replicate 8 0, List.replicate 4 0,
        h % 256 % 64, 3, [], []⟩ := rfl
  rw [e]
  simp [rwflag, data_expected_size, Nat.mod_eq_of_lt hh]

/-- C3 amended witness: header byte 0x84 decodes to direction 1, size 4. -/
theorem c3_amended_witness :
    rwflag (nextState initState 132).first_byte = 132 / 128 % 2 ∧
    (nextState initState 132).data_idx = 132 % 64 ∧
    data_expected_size (nextState initState 132).first_byte = 132 % 64 :=
  c3_amended 132 (by decide)

/-- C4 counterexample: for header 0x82 and address bytes 0x00 0x20 0x00,
with a collaborator answering 0x5A (90) to every read, the 5th transfer
call replies 0, not 0x5A — no register value has been fetched by then. -/
theorem c4_counterexample :
    runReplies (fun _ _ => 90) initState [130, 0, 32, 0, 0] =
      [0, 0, 0, 0, 0] ∧ (90 : Nat) ≠ 0 := by decide

/-- C4 amended: for every read transaction (header bit 7 set) from the
initial state, the register value is fetched exactly once, at the terminal
Data-phase step after the declared number of data bytes (bits 5..0 of the
header) and the Address→Data transition byte have been consumed, and the
whole fetched value is returned as that single call's uint32 reply; every
earlier call of the transaction replies 0. For header 0x82 the declared
size is 2, so with address 0x00 0x20 0x00 it is the 8th call that performs
read(0x2000, 2) and returns the fetched value. -/
theorem c4_amended (f : Nat → Nat → Nat) (h a2 a1 a0 x t : Nat)
    (d : List Nat) (hh : h < 256) (hw : rwflag h = 1) (ha2 : a2 < 256)
    (ha1 : a1 < 256) (ha0 : a0 < 256) (hd : d.length = h % 64) :
    runAccesses initState ((h :: a2 :: a1 :: a0 :: x :: d) ++ [t]) =
      [MmioAccess.read (asmAddr a2 a1 a0) (h % 64)] ∧
    runReplies f initState ((h :: a2 :: a1 :: a0 :: x :: d) ++ [t]) =
      List.replicate (5 + d.length) 0 ++
        [f (asmAddr a2 a1 a0) (h % 64) % 4294967296] := by
  obtain ⟨_, _, _, c4, c5⟩ :=
    init_transaction f h a2 a1 a0 x t d hh ha2 ha1 ha0 hd
  exact ⟨by rw [c4, if_pos hw], by rw [c5, if_pos hw]⟩

/-- C4 amended witness: header 0x82, address 0x002000, collaborator
returning 0x5A (90): the 8th call performs read(0x2000, 2) and replies
0x5A. -/
theorem c4_amended_witness :
    runAccesses initState ([130, 0, 32, 0, 0, 7, 8] ++ [9]) =
      [MmioAccess.read (asmAddr 0 32 0) (130 % 64)] ∧
    runReplies (fun _ _ => 90) initState ([130, 0, 32, 0, 0, 7, 8] ++ [9]) =
      List.replicate (5 + 2) 0 ++ [90 % 4294967296] :=
  c4_amended (fun _ _ => 90) 130 0 32 0 0 9 [7, 8] (by decide) (by decide)
    (by decide) (by decide) (by decide) (by decide)

/-- C5 code_bug evaluation at the failing input: the header byte 0x3F drives
data_idx (the spec's data_remaining) to 63, violating the claimed bound
data_remaining ≤ 4, and the first data byte of that transaction is stored at
data-buffer index 62 — 59 bytes past the 4-byte buffer, recorded by the
out-of-bounds instrumentation log. -/
theorem c5_code_bug :
    (nextState initState 63).data_idx = 63 ∧
    ¬(nextState initState 63).data_idx ≤ 4 ∧
    (runState initState [63, 0, 0, 0, 0, 171]).oobData = [(62, 171)] := by
  decide

/-- C6: a complete transaction — a run from an Idle state whose intermediate
states are all non-Idle and which ends back in Idle — performs exactly one
register-file access, on its final transfer call, whose entry state is the
Data phase with data_idx = 0; no earlier call of the transaction performs
any access, and a transfer call entered in the Idle or the Address phase
never performs an access. -/
theorem c6_single_access (s : TPMStateSpi) (bs : List Nat) (b : Nat)
    (h0 : s.spi_state = STATE_IDLE)
    (h1 : ∀ u ∈ runStates s bs, u.spi_state ≠ STATE_IDLE)
    (h2 : (nextState (runState s bs) b).spi_state = STATE_IDLE) :
    runAccesses s bs = [] ∧
    (runAccesses s (bs ++ [b])).length = 1 ∧
    (runState s bs).spi_state = STATE_DATA ∧
    (runState s bs).data_idx = 0 ∧
    (∀ (f : Nat → Nat → Nat) (u : TPMStateSpi) (tx : Nat),
      u.spi_state = STATE_IDLE ∨ u.spi_state = STATE_ADDRESS →
      (tpm_tis_spi_transfer8 f u tx).accesses = []) := by
  have hterm := (nextState_eq_idle_iff (runState s bs) b).mp h2
  have hacc := no_idle_no_access bs s h1
  refine ⟨hacc, ?_, hterm.1, hterm.2, ?_⟩
  · rw [runAccesses_append, hacc, List.nil_append, runAccesses, runAccesses,
      List.append_nil]
    exact terminal_accesses_length _ _ _ hterm.1 hterm.2
  · intro f u tx hu
    apply nonterminal_accesses
    rintro ⟨hd, _⟩
    rcases hu with hu | hu <;> rw [hu] at hd <;> exact absurd hd (by decide)

/-- C6 witness: the complete size-1 write transaction 0x01,0,0,0,0,0xAB,0
from the initial state. -/
theorem c6_single_access_witness :
    runAccesses initState [1, 0, 0, 0, 0, 171] = [] ∧
    (runAccesses initState ([1, 0, 0, 0, 0, 171] ++ [0])).length = 1 ∧
    (runState initState [1, 0, 0, 0, 0, 171]).spi_state = STATE_DATA ∧
    (runState initState [1, 0, 0, 0, 0, 171]).data_idx = 0 ∧
    (∀ (f : Nat → Nat → Nat) (u : TPMStateSpi) (tx : Nat),
      u.spi_state = STATE_IDLE ∨ u.spi_state = STATE_ADDRESS →
      (tpm_tis_spi_transfer8 f u tx).accesses = []) :=
  c6_single_access initState [1, 0, 0, 0, 0, 171] 0 (by decide) (by decide)
    (by decide)

/-- C8: feeding address bytes a2, a1, a0 in that order during the Address
phase of a fresh transaction yields, at the transaction's terminal step, a
register access whose address is a2·2^16 + a1·2^8 + a0 — big-endian
assembly, most significant byte first — for either direction bit. -/
theorem c8_address_assembly (h a2 a1 a0 x t : Nat) (d : List Nat)
    (hh : h < 256) (ha2 : a2 < 256) (ha1 : a1 < 256) (ha0 : a0 < 256)
    (hd : d.length = h % 64) :
    (runAccesses initState ((h :: a2 :: a1 :: a0 :: x :: d) ++ [t])).map
      accessAddr = [asmAddr a2 a1 a0] := by
  obtain ⟨_, _, _, c4, _⟩ :=
    init_transaction (fun _ _ => 0) h a2 a1 a0 x t d hh ha2 ha1 ha0 hd
  rw [c4]
  by_cases hr : rwflag h = 1 <;> simp [hr, accessAddr]

/-- C8 witness: read header 0x84, address bytes 0x00 0x10 0x00 assemble to
0x001000. -/
theorem c8_address_assembly_witness :
    (runAccesses initState
      ([132, 0, 16, 0, 0, 171, 1, 2, 3] ++ [9])).map accessAddr =
      [asmAddr 0 16 0] :=
  c8_address_assembly 132 0 16 0 0 9 [171, 1, 2, 3] (by decide) (by decide)
    (by decide) (by decide) (by decide)
